import Mathlib

/-!
# Verification of the xx-pulse runtime core

Shallow embedding of the xx-pulse asynchronous runtime (Rust) and proofs of
the specification claims about it.  Machine integers (`u32`, `u64`) are
modelled as `Nat` with explicit `% 2^32` / bound checks where overflow
matters; fallible or panicking code returns `Option`; effects (completing a
`Request`) are made explicit as emitted completion lists.
-/

namespace XxPulse

/-- The quantity `2^64`, the number of values of a `u64`. -/
def u64Size : Nat := 18446744073709551616

/-- The quantity `2^32`, the number of values of a `u32`. -/
def u32Size : Nat := 4294967296

/-- Error kinds used at the runtime core (`xx_core::error::ErrorKind` as used
by this repository: `Interrupted`, `Shutdown`, `NotFound`, `OutOfMemory`,
`Other`, plus OS-origin errors). -/
inductive ErrorKind where
  | interrupted
  | shutdown
  | notFound
  | outOfMemory
  | overflow
  | other
  deriving DecidableEq, Repr

/-- An error value: a kind plus a message (mirrors `Error::new(kind, msg)` /
`fmt_error!(msg @ kind)`). -/
structure Error where
  kind : ErrorKind
  message : String
  deriving DecidableEq, Repr

/-- `Result<()>` from the Rust source. -/
abbrev RUnit := Except Error Unit

instance {ε α : Type} [DecidableEq ε] [DecidableEq α] :
    DecidableEq (Except ε α) := fun x y =>
  match x, y with
  | Except.ok a, Except.ok b =>
    if h : a = b then isTrue (by rw [h])
    else isFalse (by intro hh; cases hh; exact h rfl)
  | Except.error a, Except.error b =>
    if h : a = b then isTrue (by rw [h])
    else isFalse (by intro hh; cases hh; exact h rfl)
  | Except.ok _, Except.error _ => isFalse (by intro hh; cases hh)
  | Except.error _, Except.ok _ => isFalse (by intro hh; cases hh)

/-! ## Driver: timer set (`src/driver.rs`)

`struct Timeout { expire: u64, request: ReqPtr<Result<()>> }`, with the derived
lexicographic order on `(expire, request)`.  The request pointer is modelled
as its address (`Nat`).  The `BTreeSet<Timeout>` is modelled as a strictly
sorted list in that order. -/

/-- A timer entry: absolute expiry in nanoseconds and the address of the
request to complete (`Timeout` in `src/driver.rs`). -/
structure Timeout where
  expire : Nat
  request : Nat
  deriving DecidableEq, Repr

/-- The derived lexicographic strict order on `(expire, request)`. -/
def Timeout.lt (a b : Timeout) : Prop :=
  a.expire < b.expire ∨ (a.expire = b.expire ∧ a.request < b.request)

instance : DecidablePred fun p : Timeout × Timeout => Timeout.lt p.1 p.2 :=
  fun _ => by unfold Timeout.lt; infer_instance

instance (a b : Timeout) : Decidable (Timeout.lt a b) := by
  unfold Timeout.lt; infer_instance

/-- `BTreeSet::insert`: insert into the sorted list; a structurally equal
element already present is left in place. -/
def timersInsert : List Timeout → Timeout → List Timeout
  | [], t => [t]
  | x :: xs, t =>
    if t = x then x :: xs
    else if Timeout.lt t x then t :: x :: xs
    else x :: timersInsert xs t

/-- `BTreeSet::take`: remove and return the element equal to the key, or
`none` when absent.  Returns the removed element and the remaining list. -/
def timersTake : List Timeout → Timeout → Option (Timeout × List Timeout)
  | [], _ => none
  | x :: xs, t =>
    if t = x then some (x, xs)
    else match timersTake xs t with
      | none => none
      | some (y, ys) => some (y, x :: ys)

/-- Driver state: the timer set and the `exiting` flag
(`struct Driver` in `src/driver.rs`; the engine is modelled separately). -/
structure DriverState where
  timers : List Timeout
  exiting : Bool
  deriving DecidableEq, Repr

/-- A completion event: `Request::complete(request, result)` on a timer
request, recorded as the request address and the `Result<()>` value. -/
abbrev Completion := Nat × RUnit

/-- The error built by `shutdown()` in `src/driver.rs`. -/
def shutdownError : Error := ⟨ErrorKind.shutdown, "Driver is shutting down"⟩

/-- The error built by `cancel_timer` in `src/driver.rs`. -/
def timerCancelledError : Error := ⟨ErrorKind.interrupted, "Timer cancelled"⟩

/-- The error built by `cancel_timer` when the timer is absent. -/
def timerNotFoundError : Error := ⟨ErrorKind.notFound, "Timer not found"⟩

/-- `Driver::check_exiting`: `Ok(())` unless the `exiting` flag is set. -/
def DriverState.check_exiting (s : DriverState) : RUnit :=
  if s.exiting = false then Except.ok () else Except.error shutdownError

/-- `Driver::cancel_timer`: take the entry from the set; if present complete
its request with an `Interrupted` error and return `Ok`, else return a
`NotFound` error.  Result: new state, emitted completions, and the
`Result<()>` of the call. -/
def DriverState.cancel_timer (s : DriverState) (t : Timeout) :
    DriverState × List Completion × RUnit :=
  match timersTake s.timers t with
  | none => (s, [], Except.error timerNotFoundError)
  | some (t0, rest) =>
    ({ s with timers := rest },
      [(t0.request, Except.error timerCancelledError)],
      Except.ok ())

/-- Progress of the `Driver::timeout` future: either resolved inline with an
error, or pending with the inserted timer key (whose removal is the cancel
token's sole action). -/
inductive TimeoutProgress where
  | doneErr (e : Error)
  | pending (key : Timeout)
  deriving DecidableEq, Repr

/-- `Driver::timeout(expire, flags, request)` evaluated at monotonic time
`now`: if exiting, resolve inline with the shutdown error; otherwise, when
the `Abs` flag is unset, compute `expire.checked_add(now)` — panicking
(`none`) on `u64` overflow, exactly as `.expect("Timeout overflow")` does —
insert the entry and return `Pending`. -/
def DriverState.timeout (s : DriverState) (expire : Nat) (abs : Bool)
    (now : Nat) (request : Nat) : Option (DriverState × TimeoutProgress) :=
  if s.exiting then some (s, TimeoutProgress.doneErr shutdownError)
  else
    let e? := if abs then some expire
      else if expire + now < u64Size then some (expire + now) else none
    match e? with
    | none => none
    | some e =>
      some ({ s with timers := timersInsert s.timers ⟨e, request⟩ },
        TimeoutProgress.pending ⟨e, request⟩)

/-- The spec's stated expiry computation for relative timeouts: a saturating
addition of `now` and `expire` on `u64`.  Stated from the spec's words, to be
compared against `DriverState.timeout` above. -/
def specSaturatingExpire (expire now : Nat) : Nat :=
  min (expire + now) (u64Size - 1)

/-- One hour in nanoseconds, the idle park timeout of `run_timers`. -/
def hourNs : Nat := 3600000000000

/-- The pop loop of `Driver::run_timers` at clock reading `now`: pop leading
timers with `expire ≤ now`, completing each with `Ok(())`.  Returns the
remaining list and the emitted completions in pop order. -/
def runTimersLoop : List Timeout → Nat → List Timeout × List Completion
  | [], _ => ([], [])
  | t :: ts, now =>
    if t.expire > now then (t :: ts, [])
    else
      let r := runTimersLoop ts now
      (r.1, (t.request, Except.ok ()) :: r.2)

/-- `Driver::run_timers`.  The clock is read once on entry (`now0`); when at
least one timer fired it is re-read (`now1`) before computing the wait delta.
Returns the new state, the completions emitted, and the returned wait in
nanoseconds (one hour when no timer remains, else the saturating difference
from the refreshed clock to the earliest remaining expiry). -/
def DriverState.run_timers (s : DriverState) (now0 now1 : Nat) :
    DriverState × List Completion × Nat :=
  let r := runTimersLoop s.timers now0
  let wait := match r.1 with
    | [] => hourNs
    | t :: _ => if r.2.isEmpty then t.expire - now0 else t.expire - now1
  ({ s with timers := r.1 }, r.2, wait)

/-! ### Helper lemmas on the timer-set model -/

theorem Timeout.lt_expire_le {a b : Timeout} (h : Timeout.lt a b) :
    a.expire ≤ b.expire := by
  rcases h with h | ⟨h, _⟩
  · exact Nat.le_of_lt h
  · exact Nat.le_of_eq h

theorem timersTake_eq_none {l : List Timeout} {t : Timeout} (h : t ∉ l) :
    timersTake l t = none := by
  induction l with
  | nil => rfl
  | cons x xs ih =>
    simp only [List.mem_cons, not_or] at h
    simp only [timersTake, if_neg h.1, ih h.2]

theorem timersTake_of_mem {l : List Timeout} {t : Timeout} (h : t ∈ l) :
    timersTake l t = some (t, l.erase t) := by
  induction l with
  | nil => exact absurd h (List.not_mem_nil t)
  | cons x xs ih =>
    by_cases he : t = x
    · subst he
      simp [timersTake, List.erase_cons_head]
    · have hx : t ∈ xs := by
        rcases List.mem_cons.mp h with h' | h'
        · exact absurd h' he
        · exact h'
      have hbeq : (x == t) = false := by
        simp [Ne.symm he]
      simp [timersTake, if_neg he, ih hx, List.erase_cons, hbeq]

theorem runTimersLoop_sorted (now : Nat) :
    ∀ l : List Timeout, l.Pairwise Timeout.lt →
      runTimersLoop l now =
        (l.filter (fun t => now < t.expire),
          (l.filter (fun t => t.expire ≤ now)).map
            (fun t => (t.request, Except.ok ()))) := by
  intro l
  induction l with
  | nil => intro _; rfl
  | cons t ts ih =>
    intro hp
    rw [List.pairwise_cons] at hp
    obtain ⟨hall, htail⟩ := hp
    by_cases hgt : now < t.expire
    · have hrest : ∀ u ∈ ts, now < u.expire := fun u hu =>
        Nat.lt_of_lt_of_le hgt (Timeout.lt_expire_le (hall u hu))
      have h1 : (t :: ts).filter (fun t => now < t.expire) = t :: ts := by
        apply List.filter_eq_self.mpr
        intro u hu
        rcases List.mem_cons.mp hu with h' | h'
        · subst h'; simpa using hgt
        · simpa using hrest u h'
      have h2 : (t :: ts).filter (fun t => t.expire ≤ now) = [] := by
        apply List.filter_eq_nil_iff.mpr
        intro u hu
        rcases List.mem_cons.mp hu with h' | h'
        · subst h'; simpa using Nat.not_le.mpr hgt
        · simpa using Nat.not_le.mpr (hrest u h')
      simp [runTimersLoop, hgt, h1, h2]
    · have hle : t.expire ≤ now := Nat.not_lt.mp hgt
      have h1 : (t :: ts).filter (fun t => now < t.expire)
          = ts.filter (fun t => now < t.expire) := by
        rw [List.filter_cons_of_neg]
        simpa using hgt
      have h2 : (t :: ts).filter (fun t => t.expire ≤ now)
          = t :: ts.filter (fun t => t.expire ≤ now) := by
        rw [List.filter_cons_of_pos]
        simpa using hle
      simp [runTimersLoop, Nat.not_lt.mpr hle, ih htail, h1, h2]

/-! ## Claim C7: timer cancellation -/

/-- C7: for every timer-cancel invocation with key `(expire, request)`: if the
entry is present in the timer set it is removed, its request is completed
exactly once with an error of kind `Interrupted`, and the call returns `Ok`;
if no such entry exists the call returns a `NotFound` error and has no side
effects — the timer set and all pending requests are unchanged. -/
theorem c7_cancel_timer (s : DriverState) (t : Timeout) :
    (t ∈ s.timers →
      s.cancel_timer t =
        ({ s with timers := s.timers.erase t },
          [(t.request, Except.error timerCancelledError)],
          Except.ok ())) ∧
    (t ∉ s.timers →
      s.cancel_timer t = (s, [], Except.error timerNotFoundError)) := by
  constructor
  · intro hmem
    simp [DriverState.cancel_timer, timersTake_of_mem hmem]
  · intro hnm
    simp [DriverState.cancel_timer, timersTake_eq_none hnm]

/-- Witness for C7 at a concrete state: a two-timer set, cancelling a present
entry removes it and completes it with `Interrupted`; cancelling an absent
entry returns `NotFound` and changes nothing. -/
theorem c7_cancel_timer_witness :
    (⟨5, 1⟩ : Timeout) ∈ [(⟨5, 1⟩ : Timeout), ⟨9, 2⟩] ∧
    DriverState.cancel_timer ⟨[⟨5, 1⟩, ⟨9, 2⟩], false⟩ ⟨5, 1⟩ =
      (⟨[⟨9, 2⟩], false⟩,
        [(1, Except.error timerCancelledError)], Except.ok ()) ∧
    (⟨7, 3⟩ : Timeout) ∉ [(⟨5, 1⟩ : Timeout), ⟨9, 2⟩] ∧
    DriverState.cancel_timer ⟨[⟨5, 1⟩, ⟨9, 2⟩], false⟩ ⟨7, 3⟩ =
      (⟨[⟨5, 1⟩, ⟨9, 2⟩], false⟩, [], Except.error timerNotFoundError) := by
  refine ⟨by decide, ?_, by decide, ?_⟩
  · exact ((c7_cancel_timer ⟨[⟨5, 1⟩, ⟨9, 2⟩], false⟩ ⟨5, 1⟩).1 (by decide)).trans
      (by decide)
  · exact ((c7_cancel_timer ⟨[⟨5, 1⟩, ⟨9, 2⟩], false⟩ ⟨7, 3⟩).2 (by decide)).trans
      (by decide)

/-! ## Claim C5: relative-timeout expiry arithmetic

The claim states the expiry is the *saturating* addition of `now` and
`expire`; the source (`src/driver.rs` line 128) computes
`expire.checked_add(nanotime()).expect("Timeout overflow")`, which panics on
`u64` overflow instead of saturating. -/

/-- C5 counterexample: at `expire = u64::MAX`, `now = 1`, the code panics
(`none`) while the claimed saturating addition would yield `u64::MAX` and a
normal `Pending` registration.  The claim as stated is therefore false. -/
theorem c5_counterexample :
    DriverState.timeout ⟨[], false⟩ (u64Size - 1) false 1 0 = none ∧
    specSaturatingExpire (u64Size - 1) 1 = u64Size - 1 := by
  constructor
  · simp [DriverState.timeout, u64Size]
  · simp [specSaturatingExpire, u64Size]

/-- C5 (amended): for every `Driver::timeout` call with flags not containing
`Abs` and the driver not exiting, the absolute expiry inserted into the timer
set equals the checked addition `expire + now` when that sum fits in a `u64`,
and the future returns `Pending` with that entry as cancel key; when
`expire + now` exceeds `u64::MAX` the call panics ("Timeout overflow")
rather than saturating. -/
theorem c5_timeout_checked_add (s : DriverState) (expire now req : Nat)
    (hex : s.exiting = false) :
    (expire + now < u64Size →
      s.timeout expire false now req =
        some ({ s with timers := timersInsert s.timers ⟨expire + now, req⟩ },
          TimeoutProgress.pending ⟨expire + now, req⟩)) ∧
    (u64Size ≤ expire + now → s.timeout expire false now req = none) := by
  constructor
  · intro h
    simp [DriverState.timeout, hex, h]
  · intro h
    simp [DriverState.timeout, hex, Nat.not_lt.mpr h]

/-- Witness for C5 (amended) at concrete inputs: a small sum registers the
timer at `expire + now`; an overflowing sum panics. -/
theorem c5_timeout_checked_add_witness :
    (⟨[], false⟩ : DriverState).exiting = false ∧
    (100 : Nat) + 7 < u64Size ∧
    DriverState.timeout ⟨[], false⟩ 100 false 7 4 =
      some (⟨[⟨107, 4⟩], false⟩, TimeoutProgress.pending ⟨107, 4⟩) ∧
    u64Size ≤ (u64Size - 1) + 2 ∧
    DriverState.timeout ⟨[], false⟩ (u64Size - 1) false 2 4 = none := by
  refine ⟨rfl, by decide, ?_, by simp [u64Size], ?_⟩
  · exact ((c5_timeout_checked_add ⟨[], false⟩ 100 7 4 rfl).1 (by decide)).trans
      (by decide)
  · exact (c5_timeout_checked_add ⟨[], false⟩ (u64Size - 1) 2 4 rfl).2
      (by simp [u64Size])

/-! ## Claim C4: `Driver::run_timers` -/

/-- C4: every call to `Driver::run_timers` (clock read `now0` on entry,
re-read `now1` after any timer fired) removes from the sorted timer set
exactly the timers with `expire ≤ now0`, completes each of their requests
with `Ok(())` in ascending `(expire, request)` order, never completes a timer
before its expiry, and returns the delta from the (re-read) clock to the
earliest remaining expiry — or one hour in nanoseconds when none remains. -/
theorem c4_run_timers (s : DriverState) (now0 now1 : Nat)
    (hsort : s.timers.Pairwise Timeout.lt) :
    (s.run_timers now0 now1).1.timers =
        s.timers.filter (fun t => now0 < t.expire) ∧
    (s.run_timers now0 now1).2.1 =
        (s.timers.filter (fun t => t.expire ≤ now0)).map
          (fun t => (t.request, Except.ok ())) ∧
    (s.timers.filter (fun t => t.expire ≤ now0)).Pairwise Timeout.lt ∧
    (∀ t ∈ s.timers.filter (fun t => t.expire ≤ now0), t.expire ≤ now0) ∧
    ((s.run_timers now0 now1).1.timers = [] →
      (s.run_timers now0 now1).2.2 = hourNs) ∧
    (∀ t rest, (s.run_timers now0 now1).1.timers = t :: rest →
      (s.run_timers now0 now1).2.2 =
        t.expire - (if (s.run_timers now0 now1).2.1.isEmpty
          then now0 else now1)) := by
  have hloop := runTimersLoop_sorted now0 s.timers hsort
  refine ⟨?_, ?_, ?_, ?_, ?_, ?_⟩
  · simp [DriverState.run_timers, hloop]
  · simp [DriverState.run_timers, hloop]
  · exact List.Pairwise.filter _ hsort
  · intro t ht
    simpa using (List.mem_filter.mp ht).2
  · intro hnil
    simp only [DriverState.run_timers, hloop] at hnil ⊢
    simp [hnil]
  · intro t rest hcons
    simp only [DriverState.run_timers, hloop] at hcons ⊢
    simp [hcons]
    split <;> rfl

/-- Witness for C4 at a concrete state: timers at 3, 7 and 12 ns with the
clock at 8 entering and 9 after firing; the 3 and 7 timers fire with `Ok` in
order, the 12 timer stays, and the returned wait is `12 - 9 = 3`. -/
theorem c4_run_timers_witness :
    ([(⟨3, 1⟩ : Timeout), ⟨7, 2⟩, ⟨12, 3⟩].Pairwise Timeout.lt) ∧
    DriverState.run_timers ⟨[⟨3, 1⟩, ⟨7, 2⟩, ⟨12, 3⟩], false⟩ 8 9 =
      (⟨[⟨12, 3⟩], false⟩,
        [(1, Except.ok ()), (2, Except.ok ())], 3) ∧
    (DriverState.run_timers ⟨[⟨3, 1⟩, ⟨7, 2⟩, ⟨12, 3⟩], false⟩ 8 9).1.timers =
      [(⟨3, 1⟩ : Timeout), ⟨7, 2⟩, ⟨12, 3⟩].filter (fun t => 8 < t.expire) := by
  refine ⟨by decide, by decide, ?_⟩
  exact (c4_run_timers ⟨[⟨3, 1⟩, ⟨7, 2⟩, ⟨12, 3⟩], false⟩ 8 9 (by decide)).1

/-! ## Claim C10: `Driver::exit` re-invocability

`Driver::exit` sets `exiting`, drains all timers with the shutdown error,
then loops `run_timers` + `park` until the engine has no outstanding work,
and finally clears `exiting`.  During a park, engine completions may re-enter
the driver only through `timeout` and `cancel_timer`; these are the modelled
park events. -/

/-- A driver API call made re-entrantly from a completion during the exit
park loop: a `timeout` registration attempt or a timer cancel. -/
inductive DrvEvent where
  | timeoutEv (expire : Nat) (abs : Bool) (now : Nat) (request : Nat)
  | cancelEv (t : Timeout)

/-- Apply one park event to the driver state (`none` models a panic). -/
def applyEvent (s : DriverState) : DrvEvent → Option (DriverState × List Completion)
  | DrvEvent.timeoutEv expire abs now req =>
    match s.timeout expire abs now req with
    | none => none
    | some (s', _) => some (s', [])
  | DrvEvent.cancelEv t =>
    let r := s.cancel_timer t
    some (r.1, r.2.1)

/-- Apply a list of park events in order, accumulating emitted completions. -/
def applyEvents : DriverState → List DrvEvent → Option (DriverState × List Completion)
  | s, [] => some (s, [])
  | s, e :: es =>
    match applyEvent s e with
    | none => none
    | some (s', cs) =>
      match applyEvents s' es with
      | none => none
      | some (s'', cs') => some (s'', cs ++ cs')

/-- One iteration of the exit loop: the two clock readings of its
`run_timers` call and the driver re-entries performed during the park. -/
structure ExitRound where
  now0 : Nat
  now1 : Nat
  events : List DrvEvent

/-- One exit-loop iteration: `run_timers`, then the park's re-entries. -/
def runRound (s : DriverState) (r : ExitRound) :
    Option (DriverState × List Completion) :=
  let rt := s.run_timers r.now0 r.now1
  match applyEvents rt.1 r.events with
  | none => none
  | some (s', cs) => some (s', rt.2.1 ++ cs)

/-- The exit loop over its iterations. -/
def runRounds : DriverState → List ExitRound → Option (DriverState × List Completion)
  | s, [] => some (s, [])
  | s, r :: rs =>
    match runRound s r with
    | none => none
    | some (s', cs) =>
      match runRounds s' rs with
      | none => none
      | some (s'', cs') => some (s'', cs ++ cs')

/-- The drain loop of `Driver::exit`: pop every timer in order, completing
each with the shutdown error. -/
def drainTimers : List Timeout → List Completion
  | [] => []
  | t :: ts => (t.request, Except.error shutdownError) :: drainTimers ts

/-- `Driver::exit`: set `exiting`, drain all timers with `Shutdown`, run the
park loop (`rounds` iterations, plus the final `run_timers` of the breaking
iteration at clock readings `fin0`/`fin1`), then clear `exiting`. -/
def DriverState.exit (s : DriverState) (rounds : List ExitRound)
    (fin0 fin1 : Nat) : Option (DriverState × List Completion) :=
  let cs0 := drainTimers s.timers
  match runRounds ⟨[], true⟩ rounds with
  | none => none
  | some (s2, cs1) =>
    let rt := s2.run_timers fin0 fin1
    some ({ rt.1 with exiting := false }, cs0 ++ cs1 ++ rt.2.1)

theorem applyEvent_exiting_empty {s : DriverState} (e : DrvEvent)
    (ht : s.timers = []) (hx : s.exiting = true) :
    ∃ cs, applyEvent s e = some (s, cs) := by
  cases e with
  | timeoutEv expire abs now req =>
    refine ⟨[], ?_⟩
    simp [applyEvent, DriverState.timeout, hx]
  | cancelEv t =>
    refine ⟨[], ?_⟩
    simp [applyEvent, DriverState.cancel_timer, ht, timersTake]

theorem applyEvents_exiting_empty {s : DriverState} (es : List DrvEvent)
    (ht : s.timers = []) (hx : s.exiting = true) :
    ∃ cs, applyEvents s es = some (s, cs) := by
  induction es with
  | nil => exact ⟨[], rfl⟩
  | cons e es ih =>
    obtain ⟨cs, hcs⟩ := applyEvent_exiting_empty e ht hx
    obtain ⟨cs', hcs'⟩ := ih
    exact ⟨cs ++ cs', by simp [applyEvents, hcs, hcs']⟩

theorem run_timers_empty {s : DriverState} (now0 now1 : Nat)
    (ht : s.timers = []) :
    s.run_timers now0 now1 = ({ s with timers := [] }, [], hourNs) := by
  simp [DriverState.run_timers, ht, runTimersLoop]

theorem runRounds_exiting_empty {s : DriverState} (rs : List ExitRound)
    (ht : s.timers = []) (hx : s.exiting = true) :
    ∃ cs, runRounds s rs = some (s, cs) := by
  induction rs generalizing s with
  | nil => exact ⟨[], rfl⟩
  | cons r rs ih =>
    have hs : { s with timers := [] } = s := by
      cases s; simp_all
    have hrt := run_timers_empty r.now0 r.now1 ht
    obtain ⟨cs, hcs⟩ := applyEvents_exiting_empty (s := s) r.events ht hx
    obtain ⟨cs', hcs'⟩ := ih ht hx
    refine ⟨cs ++ cs', ?_⟩
    simp [runRounds, runRound, hrt, hs, hcs, hcs']

/-- C10: whenever `Driver::exit` returns, the `exiting` flag has been reset
to `false` and the timer set is empty, so a subsequent `check_exiting`
returns `Ok(())` and a new (absolute) timeout registers normally again —
making `exit` re-invocable, as `Runtime::drop` relies on by calling it once
per round of worker cancellation. -/
theorem c10_exit_reinvocable (s : DriverState) (rounds : List ExitRound)
    (fin0 fin1 : Nat) :
    ∃ cs, s.exit rounds fin0 fin1 = some (⟨[], false⟩, cs) ∧
      DriverState.check_exiting ⟨[], false⟩ = Except.ok () ∧
      (∀ e now req, DriverState.timeout ⟨[], false⟩ e true now req =
        some (⟨[⟨e, req⟩], false⟩, TimeoutProgress.pending ⟨e, req⟩)) := by
  obtain ⟨cs1, hcs1⟩ := runRounds_exiting_empty (s := ⟨[], true⟩) rounds rfl rfl
  refine ⟨drainTimers s.timers ++ cs1 ++ [], ?_, rfl, ?_⟩
  · have hrt := run_timers_empty (s := ⟨[], true⟩) fin0 fin1 rfl
    simp [DriverState.exit, hcs1, hrt]
  · intro e now req
    simp [DriverState.timeout, timersInsert]

/-! ## Claim C3: `IoUring::enter` error classification
(`src/engine/uring/engine.rs`, `fn enter`)

The closure result of each `io_uring_enter` call is modelled as a trace
entry; the loop consumes the trace.  `to_submit` is the local counter taken
from the engine (`self.to_submit.replace(0)`); the kernel never reports more
submitted entries than were passed, so plain `Nat` subtraction is exact. -/

/-- OS errors distinguished by the `enter` loop. -/
inductive OsErr where
  | time
  | intr
  | busy
  | again
  | osOther (code : Nat)
  deriving DecidableEq, Repr

/-- The result of one `io_uring_enter` syscall: number of submitted entries,
or an OS error. -/
inductive EnterStep where
  | stepOk (submitted : Nat)
  | stepErr (e : OsErr)
  deriving DecidableEq, Repr

/-- The value of `IoUring::enter`: success, `OutOfMemory`, or a propagated
OS error. -/
inductive EnterOutcome where
  | entered
  | outOfMemory
  | osError (e : OsErr)
  deriving DecidableEq, Repr

/-- The retry loop of `IoUring::enter` over the trace of syscall results
(`none` when the trace ends before the loop does).  On `Ok(submitted)` the
remaining count is decremented; zero remaining breaks with success, a partial
submit loops unless `SUBMIT_ALL` is supported, in which case it becomes
`OutOfMemory`.  On `Err`: `Time`/`Intr`/`Busy` with nothing left to submit is
success, `Again` is `OutOfMemory`, anything else is propagated. -/
def enterLoop (submitAll : Bool) : Nat → List EnterStep → Option EnterOutcome
  | _, [] => none
  | toSubmit, EnterStep.stepOk n :: rest =>
    let rem := toSubmit - n
    if rem = 0 then some EnterOutcome.entered
    else if submitAll = false then enterLoop submitAll rem rest
    else some EnterOutcome.outOfMemory
  | toSubmit, EnterStep.stepErr e :: _ =>
    if (e = OsErr.time ∨ e = OsErr.intr ∨ e = OsErr.busy) ∧ toSubmit = 0 then
      some EnterOutcome.entered
    else if e = OsErr.again then some EnterOutcome.outOfMemory
    else some (EnterOutcome.osError e)

/-- C3: for every enter call: an `Again` error is returned as `OutOfMemory`;
a `Time`, `Intr` or `Busy` error when no submissions remain is treated as
success; a partial submit is retried in a loop when `SUBMIT_ALL` is
unsupported and converted to `OutOfMemory` when `SUBMIT_ALL` is active; any
other OS error is propagated to the caller. -/
theorem c3_enter_classification (sa : Bool) (ts n code : Nat)
    (e : OsErr) (rest : List EnterStep) :
    (enterLoop sa ts (EnterStep.stepErr OsErr.again :: rest) =
      some EnterOutcome.outOfMemory) ∧
    ((e = OsErr.time ∨ e = OsErr.intr ∨ e = OsErr.busy) →
      enterLoop sa 0 (EnterStep.stepErr e :: rest) =
        some EnterOutcome.entered) ∧
    (0 < ts - n →
      enterLoop false ts (EnterStep.stepOk n :: rest) =
        enterLoop false (ts - n) rest) ∧
    (0 < ts - n →
      enterLoop true ts (EnterStep.stepOk n :: rest) =
        some EnterOutcome.outOfMemory) ∧
    (enterLoop sa ts (EnterStep.stepErr (OsErr.osOther code) :: rest) =
      some (EnterOutcome.osError (OsErr.osOther code))) := by
  refine ⟨?_, ?_, ?_, ?_, ?_⟩
  · simp [enterLoop]
  · intro he
    simp [enterLoop, he]
  · intro hrem
    simp [enterLoop, Nat.pos_iff_ne_zero.mp hrem]
  · intro hrem
    simp [enterLoop, Nat.pos_iff_ne_zero.mp hrem]
  · simp [enterLoop]

/-- Witness for C3 at concrete inputs: `Time` with nothing to submit, and a
partial submit of 2 of 5 entries with and without `SUBMIT_ALL`. -/
theorem c3_enter_classification_witness :
    (OsErr.time = OsErr.time ∨ OsErr.time = OsErr.intr ∨
      OsErr.time = OsErr.busy) ∧
    enterLoop true 0 [EnterStep.stepErr OsErr.time] =
      some EnterOutcome.entered ∧
    (0 : Nat) < 5 - 2 ∧
    enterLoop false 5 [EnterStep.stepOk 2, EnterStep.stepOk 3] =
      enterLoop false (5 - 2) [EnterStep.stepOk 3] ∧
    enterLoop true 5 [EnterStep.stepOk 2, EnterStep.stepOk 3] =
      some EnterOutcome.outOfMemory := by
  have h := c3_enter_classification true 5 2 0 OsErr.time
    [EnterStep.stepOk 3]
  have h' := c3_enter_classification false 5 2 0 OsErr.time
    [EnterStep.stepOk 3]
  refine ⟨Or.inl rfl, ?_, by decide, ?_, ?_⟩
  · exact (c3_enter_classification true 0 0 0 OsErr.time []).2.1 (Or.inl rfl)
  · exact h'.2.2.1 (by decide)
  · exact h.2.2.2.1 (by decide)

/-! ## Claim C2: `IoUring::run_events` completion dispatch
(`src/engine/uring/engine.rs`, `fn run_events`)

`head` and `tail` are the `u32` CQ ring cursors of the snapshot read by
`submit_and_wait`.  The pass computes `count = tail.wrapping_sub(head)`,
decrements `to_complete` by `count`, completes the entry at index
`tail.wrapping_sub(1)` first (cache-locality micro-optimization), then walks
`head` upward with wrapping increments until it meets `tail - 1`.  Each
completion reads the CQE at `index & mask` and calls `Request::complete`; we
record the sequence of (unmasked) indices completed. -/

/-- `u32` wrapping subtraction on `Nat` values below `2^32`. -/
def u32sub (a b : Nat) : Nat := (a + u32Size - b % u32Size) % u32Size

/-- The `while head != tail` walk of `run_events`, with wrapping `u32`
increments; `fuel` bounds the iteration count (the caller passes `count`,
which always suffices). -/
def cqHeadLoop (fuel h t : Nat) : List Nat :=
  match fuel with
  | 0 => []
  | f + 1 => if h = t then [] else h :: cqHeadLoop f ((h + 1) % u32Size) t

/-- The sequence of CQE indices completed by one `run_events` pass over the
snapshot `(head, tail)`: empty when the cursors are equal, else the final
index `tail - 1` first, then `head, head+1, …` up to `tail - 2`. -/
def runEventsOrder (head tail : Nat) : List Nat :=
  let count := u32sub tail head
  if count = 0 then []
  else
    let t' := u32sub tail 1
    t' :: cqHeadLoop count head t'

/-- The `to_complete` counter after one `run_events` pass (`u64` wrapping
subtraction of `count`). -/
def runEventsToComplete (tc head tail : Nat) : Nat :=
  let count := u32sub tail head
  if count = 0 then tc else (tc + u64Size - count % u64Size) % u64Size

theorem u32sub_of_le {a b : Nat} (hba : b ≤ a) (ha : a < u32Size) :
    u32sub a b = a - b := by
  unfold u32sub u32Size
  unfold u32Size at ha
  omega

theorem cqHeadLoop_range' (n : Nat) :
    ∀ fuel h, n ≤ fuel → h + n < u32Size →
      cqHeadLoop fuel h (h + n) = List.range' h n := by
  induction n with
  | zero =>
    intro fuel h _ _
    cases fuel with
    | zero => rfl
    | succ f => simp [cqHeadLoop]
  | succ n ih =>
    intro fuel h hfuel hbound
    cases fuel with
    | zero => omega
    | succ f =>
      have hne : h ≠ h + (n + 1) := by omega
      have hmod : (h + 1) % u32Size = h + 1 := Nat.mod_eq_of_lt (by omega)
      have hrec := ih f (h + 1) (by omega) (by omega)
      simp only [cqHeadLoop, if_neg hne, hmod]
      have harg : h + (n + 1) = (h + 1) + n := by omega
      rw [harg, hrec, List.range'_succ]

/-- C2: for every snapshot `(head, tail)` read by the completion pass with
`head ≠ tail`, `run_events` invokes `Request::complete` exactly once for each
CQE index in `[head, tail)` — completing the final entry (index `tail - 1`)
first and the remaining entries in FIFO order from `head` — so every CQE
present at the start of the pass is delivered before the pass returns, and
`to_complete` is decremented by exactly `tail - head`. -/
theorem c2_run_events (head tail tc : Nat) (h1 : head < tail)
    (h2 : tail < u32Size) (h3 : tail - head ≤ tc) (h4 : tc < u64Size) :
    runEventsOrder head tail =
      (tail - 1) :: List.range' head (tail - 1 - head) ∧
    (∀ i, (runEventsOrder head tail).count i =
      if head ≤ i ∧ i < tail then 1 else 0) ∧
    runEventsToComplete tc head tail = tc - (tail - head) := by
  have hcount : u32sub tail head = tail - head :=
    u32sub_of_le (Nat.le_of_lt h1) h2
  have hcne : tail - head ≠ 0 := by omega
  have ht' : u32sub tail 1 = tail - 1 := u32sub_of_le (by omega) h2
  have hloop : cqHeadLoop (tail - head) head (tail - 1) =
      List.range' head (tail - 1 - head) := by
    have h5 := cqHeadLoop_range' (tail - 1 - head) (tail - head) head (by omega)
      (by omega)
    have harg : head + (tail - 1 - head) = tail - 1 := by omega
    rw [harg] at h5
    exact h5
  have horder : runEventsOrder head tail =
      (tail - 1) :: List.range' head (tail - 1 - head) := by
    unfold runEventsOrder
    simp only [hcount, if_neg hcne, ht', hloop]
  refine ⟨horder, ?_, ?_⟩
  · intro i
    rw [horder]
    have hrange : (List.range' head (tail - 1 - head)).count i =
        if head ≤ i ∧ i < tail - 1 then 1 else 0 := by
      by_cases hmem : i ∈ List.range' head (tail - 1 - head)
      · have hm := List.mem_range'_1.mp hmem
        rw [List.count_eq_one_of_mem (List.nodup_range' _ _) hmem, if_pos]
        omega
      · rw [List.count_eq_zero.mpr hmem, if_neg]
        intro hcontra
        exact hmem (List.mem_range'_1.mpr (by omega))
    rw [List.count_cons, hrange]
    simp only [beq_iff_eq]
    split_ifs <;> omega
  · unfold runEventsToComplete
    simp only [hcount, if_neg hcne]
    have : (tail - head) % u64Size = tail - head := by
      unfold u64Size
      unfold u32Size at h2
      omega
    rw [this]
    unfold u64Size
    unfold u64Size at h4
    omega

/-- Witness for C2 at the concrete snapshot `head = 2`, `tail = 6`,
`to_complete = 10`: indices `5, 2, 3, 4` are completed in that order and
`to_complete` drops to `6`. -/
theorem c2_run_events_witness :
    (2 : Nat) < 6 ∧ (6 : Nat) < u32Size ∧ (6 : Nat) - 2 ≤ 10 ∧
    (10 : Nat) < u64Size ∧
    runEventsOrder 2 6 = [5, 2, 3, 4] ∧
    runEventsToComplete 10 2 6 = 6 := by
  have h := c2_run_events 2 6 10 (by decide)
    (by unfold u32Size; omega) (by decide) (by unfold u64Size; omega)
  refine ⟨by decide, by unfold u32Size; omega, by decide,
    by unfold u64Size; omega, ?_, ?_⟩
  · rw [h.1]; rfl
  · rw [h.2.2]

/-! ## Claim C8: `close` bypasses the cancellation checkpoints
(`src/ops/io.rs`, macro `async_engine_task!`)

Each raw engine operation is generated by
`async_engine_task!($force, $func ...)`: unless `$force` is `true`, it first
awaits `check_interrupt()` (erroring when the fiber is interrupted) and then
calls `driver.check_exiting()` (erroring when the driver is exiting), and
only then dispatches to the engine.  `close` is the only op generated with
`$force = true`. -/

/-- The raw async engine operations of `src/ops/io.rs`. -/
inductive RawOp where
  | opOpen | opClose | opRead | opWrite | opSocket | opAccept | opConnect
  | opRecv | opRecvmsg | opSend | opSendmsg | opShutdown | opBind | opListen
  | opFsync | opStatx | opPoll
  deriving DecidableEq, Repr

/-- The `$force` literal each op is generated with in `src/ops/io.rs`. -/
def RawOp.force : RawOp → Bool
  | RawOp.opClose => true
  | _ => false

/-- Outcome of the pre-dispatch gate of `async_engine_task!`. -/
inductive DispatchResult where
  | errInterrupted
  | errShutdown
  | dispatched
  deriving DecidableEq, Repr

/-- The body of `async_engine_task!` up to the engine call: when `$force` is
false, `check_interrupt` then `check_exiting` run first and their errors are
returned without dispatching; otherwise the op dispatches unconditionally. -/
def rawDispatch (op : RawOp) (interrupted exiting : Bool) : DispatchResult :=
  if op.force = false then
    if interrupted then DispatchResult.errInterrupted
    else if exiting then DispatchResult.errShutdown
    else DispatchResult.dispatched
  else DispatchResult.dispatched

/-- C8: the raw `close` operation is always dispatched regardless of
cancellation state — it performs neither the interrupt check nor the
driver-exiting check — whereas every other raw engine operation first calls
`check_interrupt` and `check_exiting` and returns the corresponding error
without dispatching when the fiber has been interrupted or the driver is
exiting. -/
theorem c8_close_not_interruptible :
    RawOp.force RawOp.opClose = true ∧
    (∀ op : RawOp, op ≠ RawOp.opClose → op.force = false) ∧
    (∀ i e : Bool, rawDispatch RawOp.opClose i e = DispatchResult.dispatched) ∧
    (∀ (op : RawOp) (e : Bool), op ≠ RawOp.opClose →
      rawDispatch op true e = DispatchResult.errInterrupted) ∧
    (∀ op : RawOp, op ≠ RawOp.opClose →
      rawDispatch op false true = DispatchResult.errShutdown) ∧
    (∀ op : RawOp, op ≠ RawOp.opClose →
      rawDispatch op false false = DispatchResult.dispatched) := by
  refine ⟨rfl, ?_, ?_, ?_, ?_, ?_⟩
  · intro op h
    cases op <;> first | rfl | exact absurd rfl h
  · intro i e
    cases i <;> cases e <;> rfl
  · intro op e h
    have hf : op.force = false := by
      cases op <;> first | rfl | exact absurd rfl h
    cases e <;> simp [rawDispatch, hf]
  · intro op h
    have hf : op.force = false := by
      cases op <;> first | rfl | exact absurd rfl h
    simp [rawDispatch, hf]
  · intro op h
    have hf : op.force = false := by
      cases op <;> first | rfl | exact absurd rfl h
    simp [rawDispatch, hf]

/-- Witness for C8 at concrete ops: `close` dispatches even when interrupted
and exiting; `read` is gated by the interrupt check. -/
theorem c8_close_not_interruptible_witness :
    rawDispatch RawOp.opClose true true = DispatchResult.dispatched ∧
    RawOp.opRead ≠ RawOp.opClose ∧
    rawDispatch RawOp.opRead true false = DispatchResult.errInterrupted ∧
    rawDispatch RawOp.opRead false true = DispatchResult.errShutdown := by
  refine ⟨c8_close_not_interruptible.2.2.1 true true, by decide, ?_, ?_⟩
  · exact c8_close_not_interruptible.2.2.2.1 RawOp.opRead false (by decide)
  · exact c8_close_not_interruptible.2.2.2.2.1 RawOp.opRead (by decide)

/-! ## Claim C6: `Context::interrupt`
(`src/async_runtime.rs`, `impl AsyncContext for Context`)

The context carries the registered cancel closure (modelled by the
`Result<()>` its invocation returns), the `guards` counter and the two
interrupt flags.  `interrupt()` with `guards == 0` consumes the closure
(panicking — `none` — when none is registered) and returns its result; with
`guards > 0` it sets `pending_interrupt` and returns
`Error::new(ErrorKind::Other, "Interrupt is prevented")`. -/

/-- The interrupt-relevant state of `Context` in `src/async_runtime.rs`. -/
structure InterruptCtx where
  cancel : Option RUnit
  guards : Nat
  interrupted : Bool
  pending_interrupt : Bool
  deriving DecidableEq, Repr

/-- The error returned when an interrupt is prevented by an active guard. -/
def interruptPreventedError : Error := ⟨ErrorKind.other, "Interrupt is prevented"⟩

/-- `Context::interrupt`: guarded → set `pending_interrupt`, return the
"prevented" error; unguarded → set `interrupted`, take and invoke the cancel
closure and return its result (`none` models the
`expect("Task interrupted while active")` panic when no closure is
registered). -/
def InterruptCtx.interrupt (c : InterruptCtx) :
    Option (InterruptCtx × RUnit) :=
  if c.guards > 0 then
    some ({ c with pending_interrupt := true },
      Except.error interruptPreventedError)
  else
    match c.cancel with
    | none => none
    | some tok => some ({ c with cancel := none, interrupted := true }, tok)

/-- C6 counterexample: at the concrete context with one guard held, a
registered cancel token and clear flags, `interrupt()` returns an error of
kind `Other` — not `Interrupted` as the claim states. -/
theorem c6_counterexample :
    InterruptCtx.interrupt ⟨some (Except.ok ()), 1, false, false⟩ =
      some (⟨some (Except.ok ()), 1, false, true⟩,
        Except.error ⟨ErrorKind.other, "Interrupt is prevented"⟩) ∧
    ErrorKind.other ≠ ErrorKind.interrupted := by
  exact ⟨rfl, by decide⟩

/-- C6 (amended): for every `Context`, `interrupt()` with `guards == 0` and a
registered cancel token sets `interrupted` to true, consumes and invokes the
token, and returns the token's result; with `guards > 0` it sets the
pending-interrupt flag, invokes no cancel token (the slot is untouched),
leaves `interrupted` unchanged (false stays false), and returns an error of
kind `Other` with message "Interrupt is prevented". -/
theorem c6_interrupt (c : InterruptCtx) (tok : RUnit) :
    (c.guards = 0 → c.cancel = some tok →
      c.interrupt = some ({ c with cancel := none, interrupted := true },
        tok)) ∧
    (0 < c.guards →
      c.interrupt = some ({ c with pending_interrupt := true },
        Except.error ⟨ErrorKind.other, "Interrupt is prevented"⟩)) := by
  constructor
  · intro hg hc
    simp [InterruptCtx.interrupt, hg, hc]
  · intro hg
    simp [InterruptCtx.interrupt, Nat.pos_iff_ne_zero.mp hg,
      interruptPreventedError]

/-- Witness for C6 (amended) at concrete contexts: unguarded interrupt
consumes and returns the token's result; guarded interrupt defers and
reports "Interrupt is prevented" with kind `Other`. -/
theorem c6_interrupt_witness :
    InterruptCtx.interrupt ⟨some (Except.ok ()), 0, false, false⟩ =
      some (⟨none, 0, true, false⟩, Except.ok ()) ∧
    InterruptCtx.interrupt ⟨some (Except.ok ()), 2, false, false⟩ =
      some (⟨some (Except.ok ()), 2, false, true⟩,
        Except.error ⟨ErrorKind.other, "Interrupt is prevented"⟩) := by
  constructor
  · exact ((c6_interrupt ⟨some (Except.ok ()), 0, false, false⟩
      (Except.ok ())).1 rfl rfl).trans (by rfl)
  · exact ((c6_interrupt ⟨some (Except.ok ()), 2, false, false⟩
      (Except.ok ())).2 (by decide)).trans (by rfl)

/-! ## Claim C9: `Interval::next` with the `Skip` policy
(`src/interval.rs`)

`next()` reads `now = nanotime()`, substitutes `expire = now` on the very
first call (`expire == 0` sentinel), computes the next expiry per the
missed-tick policy with `u64` checked additions (panic — `none` — on
overflow), stores it, and awaits an absolute timeout exactly when the new
expiry lies in the future. -/

/-- The missed-tick policies of `src/interval.rs`. -/
inductive MissedTickBehavior where
  | burst
  | delayPolicy
  | skip
  deriving DecidableEq, Repr

/-- `u64::checked_add`. -/
def checkedAddU64 (a b : Nat) : Option Nat :=
  if a + b < u64Size then some (a + b) else none

/-- The `Interval` state: previous scheduled expiry (0 = not started), period
and policy. -/
structure Interval where
  expire : Nat
  delay : Nat
  behavior : MissedTickBehavior
  deriving DecidableEq, Repr

/-- `Interval::next` at monotonic time `now`: returns the updated interval
and whether it awaits a timeout (`expire > now`); `none` models the
`checked_add(..).unwrap()` panics. -/
def Interval.nextModel (iv : Interval) (now : Nat) : Option (Interval × Bool) :=
  if iv.delay = 0 then some (iv, false)
  else
    let expire0 := if iv.expire = 0 then now else iv.expire
    let e? := match iv.behavior with
      | MissedTickBehavior.burst => checkedAddU64 expire0 iv.delay
      | MissedTickBehavior.delayPolicy => checkedAddU64 now iv.delay
      | MissedTickBehavior.skip =>
        match checkedAddU64 expire0 iv.delay with
        | none => none
        | some next1 =>
          if now > next1 then
            match checkedAddU64 now iv.delay with
            | none => none
            | some next2 => some (next2 - (now - expire0) % iv.delay)
          else some next1
    match e? with
    | none => none
    | some e => some ({ iv with expire := e }, decide (now < e))

/-- C9: for every `Interval` with nonzero period `delay` and the `Skip`
missed-tick policy, a call to `next()` at monotonic time `now` with previous
scheduled expiry `expire` sets the next expiry to `expire + delay` when
`now ≤ expire + delay`, and otherwise to
`now + delay - ((now - expire) % delay)`, aligning to the original tick
boundaries. -/
theorem c9_interval_skip (expire delay now : Nat) (hd : 0 < delay)
    (he : expire ≠ 0) (h1 : expire + delay < u64Size)
    (h2 : now + delay < u64Size) :
    (now ≤ expire + delay →
      Interval.nextModel ⟨expire, delay, MissedTickBehavior.skip⟩ now =
        some (⟨expire + delay, delay, MissedTickBehavior.skip⟩,
          decide (now < expire + delay))) ∧
    (expire + delay < now →
      Interval.nextModel ⟨expire, delay, MissedTickBehavior.skip⟩ now =
        some (⟨now + delay - (now - expire) % delay, delay,
            MissedTickBehavior.skip⟩,
          decide (now < now + delay - (now - expire) % delay))) := by
  constructor
  · intro hle
    simp [Interval.nextModel, Nat.pos_iff_ne_zero.mp hd, he,
      checkedAddU64, h1, Nat.not_lt.mpr hle]
  · intro hgt
    simp [Interval.nextModel, Nat.pos_iff_ne_zero.mp hd, he,
      checkedAddU64, h1, h2, hgt]

/-- Witness for C9 at the spec's literal scenario (1 s period, first tick
scheduled at 1 s, a 3.1 s blocking segment, so `now = 4.1 s`): the next
expiry aligns to `5 s = first tick + 4 s`, not `now + 1 s = 5.1 s`, and the
call awaits. -/
theorem c9_interval_skip_witness :
    (0 : Nat) < 1000000000 ∧ (1000000000 : Nat) ≠ 0 ∧
    (1000000000 : Nat) + 1000000000 < u64Size ∧
    (4100000000 : Nat) + 1000000000 < u64Size ∧
    (1000000000 : Nat) + 1000000000 < 4100000000 ∧
    Interval.nextModel ⟨1000000000, 1000000000, MissedTickBehavior.skip⟩
        4100000000 =
      some (⟨5000000000, 1000000000, MissedTickBehavior.skip⟩, true) ∧
    (4100000000 : Nat) + 1000000000 - (4100000000 - 1000000000) % 1000000000 =
      5000000000 := by
  refine ⟨by decide, by decide, by unfold u64Size; omega,
    by unfold u64Size; omega, by decide, ?_, by decide⟩
  have h := (c9_interval_skip 1000000000 1000000000 4100000000 (by decide)
    (by decide) (by unfold u64Size; omega) (by unfold u64Size; omega)).2
    (by decide)
  rw [h]
  rfl

/-! ## Claim C1: `select` sync-completion race
(`src/ops/select.rs`, `SelectData::select` and `SelectData::complete`)

The two raced tasks are abstracted by their observable behaviour: `run`
returns `Done(v)` or `Pending(cancel)`, and a cancel token, when run, either
synchronously completes its task's request with some value (re-entering the
`complete_i` callback) or leaves it to complete later; its `Result<()>` is
only logged.  The combinator's shared state mirrors `SelectData`:
`result_1/2`, `cancel_1/2` and the `sync_done` flag.  Effects are explicit:
each step returns the new state plus any completion of the combinator's own
request, and `none` models panics (`unwrap` of a missing cancel or result). -/

/-- Observable behaviour of a cancel token: whether running it synchronously
completes the task's request (and with which value), and the `Result<()>` it
returns (only logged by `select`). -/
structure CancelSpec (O : Type) where
  syncValue : Option O
  runOk : Bool
  deriving DecidableEq, Repr

/-- Observable behaviour of `Task::run`: inline completion or pending with a
cancel token. -/
inductive STaskRun (O : Type) where
  | done (v : O)
  | pending (c : CancelSpec O)
  deriving DecidableEq, Repr

/-- The result type of `select`. -/
inductive Select (O1 O2 : Type) where
  | First (v : O1) (other : Option O2)
  | Second (v : O2) (other : Option O1)
  deriving DecidableEq, Repr

/-- The shared state of `SelectData`. -/
structure SelectSt (O1 O2 : Type) where
  result_1 : Option O1
  result_2 : Option O2
  cancel_1 : Option (CancelSpec O1)
  cancel_2 : Option (CancelSpec O2)
  sync_done : Bool
  deriving DecidableEq, Repr

/-- `SelectData::complete(is_first)`, including the re-entrant completion a
synchronously-completing cancel performs: when the flag is set, clear it and
return; when only one result is present, take and run the other task's
cancel token (whose synchronous completion stores its value and re-enters
`complete` with the other side); when both results are present, complete the
combinator's request in "last to complete first" orientation.  `fuel` bounds
the re-entrancy depth (each cancel token is consumed, so 2 always suffices);
`none` is a panic (`unwrap` of an absent cancel token). -/
def selectComplete {O1 O2 : Type} :
    Nat → Bool → SelectSt O1 O2 →
      Option (SelectSt O1 O2 × Option (Select O1 O2))
  | fuel, isFirst, s =>
    if s.sync_done then some ({ s with sync_done := false }, none)
    else
      match s.result_1, s.result_2 with
      | some v1, some v2 =>
        some ({ s with result_1 := none, result_2 := none },
          some (if isFirst then Select.Second v2 (some v1)
            else Select.First v1 (some v2)))
      | _, _ =>
        match fuel with
        | 0 => none
        | f + 1 =>
          if isFirst then
            match s.cancel_2 with
            | none => none
            | some c =>
              match c.syncValue with
              | none => some ({ s with cancel_2 := none }, none)
              | some v =>
                selectComplete f false
                  { s with cancel_2 := none, result_2 := some v }
          else
            match s.cancel_1 with
            | none => none
            | some c =>
              match c.syncValue with
              | none => some ({ s with cancel_1 := none }, none)
              | some v =>
                selectComplete f true
                  { s with cancel_1 := none, result_1 := some v }

/-- Running `cancel_1.run()` from inside `select`'s body: when the token
synchronously completes task 1's request, `complete_1` fires — it stores the
value in `result_1` and enters `complete(is_first = true)`. -/
def runCancel1 {O1 O2 : Type} (fuel : Nat) (c : CancelSpec O1)
    (s : SelectSt O1 O2) : Option (SelectSt O1 O2 × Option (Select O1 O2)) :=
  match c.syncValue with
  | none => some (s, none)
  | some v => selectComplete fuel true { s with result_1 := some v }

/-- The value of the `select` sync task's `run`: resolved inline or pending
with the final shared state. -/
inductive SelectOutcome (O1 O2 : Type) where
  | done (v : Select O1 O2)
  | pending (s : SelectSt O1 O2)
  deriving DecidableEq, Repr

/-- The body of `SelectData::select`: run task 1 (inline completion returns
`Done(First(v, None))` before task 2 is touched); else run task 2 — if it is
pending, transition to `Pending` with both tokens stored; if it resolved
inline, store its result, set `sync_done`, take and run task 1's cancel
token, then return `Done` exactly when the flag was cleared by a re-entrant
completion, else clear the flag and transition to `Pending`.  The second
component is any completion of the combinator's own request emitted while
still inside the body; `none` is a panic. -/
def selectRun {O1 O2 : Type} (b1 : STaskRun O1) (b2 : STaskRun O2) :
    Option (SelectOutcome O1 O2 × Option (Select O1 O2)) :=
  let s0 : SelectSt O1 O2 := ⟨none, none, none, none, false⟩
  match b1 with
  | STaskRun.done v => some (SelectOutcome.done (Select.First v none), none)
  | STaskRun.pending c1 =>
    match b2 with
    | STaskRun.pending c2 =>
      some (SelectOutcome.pending
        { s0 with cancel_1 := some c1, cancel_2 := some c2 }, none)
    | STaskRun.done v2 =>
      let s2 : SelectSt O1 O2 := { s0 with result_2 := some v2, sync_done := true }
      match runCancel1 2 c1 s2 with
      | none => none
      | some (s3, emit) =>
        if s3.sync_done = false then
          match s3.result_2 with
          | none => none
          | some v2' =>
            some (SelectOutcome.done (Select.Second v2' s3.result_1), emit)
        else
          some (SelectOutcome.pending { s3 with sync_done := false }, emit)

/-- C1: in `select(a, b)`, if task 2's `run` returns `Done` synchronously
while task 1 is already `Pending`, the combinator does not return `Done`
immediately from the body of that `run`: it records the sync-completion
flag, runs the pending task's cancel token, and then returns `Done` —
pairing the synchronous winner with the cancelled task's value — exactly
when the cancelled task completed during the cancel call; otherwise it
clears the flag and transitions to `Pending` (with task 2's result stored,
the cancel token consumed and no completion of the combinator's request
emitted from the body). -/
theorem c1_select_sync_race {O1 O2 : Type} (v2 : O2) (c1 : CancelSpec O1) :
    (∀ v1, c1.syncValue = some v1 →
      selectRun (STaskRun.pending c1) (STaskRun.done v2) =
        some (SelectOutcome.done (Select.Second v2 (some v1)), none)) ∧
    (c1.syncValue = none →
      selectRun (STaskRun.pending c1) (STaskRun.done v2) =
        some (SelectOutcome.pending ⟨none, some v2, none, none, false⟩,
          none)) := by
  constructor
  · intro v1 hc
    simp [selectRun, runCancel1, hc, selectComplete]
  · intro hc
    simp [selectRun, runCancel1, hc]

/-- Witness for C1 at concrete behaviours (`O1 = O2 = Nat`): a cancel that
synchronously completes task 1 with `7` yields `Done(Second(3, Some(7)))`;
a cancel that does not yields `Pending` with the flag clear. -/
theorem c1_select_sync_race_witness :
    (CancelSpec.mk (some 7) true).syncValue = some 7 ∧
    selectRun (STaskRun.pending (CancelSpec.mk (some 7) true))
        (STaskRun.done (3 : Nat)) =
      some (SelectOutcome.done (Select.Second 3 (some 7)), none) ∧
    (CancelSpec.mk (none : Option Nat) true).syncValue = none ∧
    selectRun (STaskRun.pending (CancelSpec.mk (none : Option Nat) true))
        (STaskRun.done (3 : Nat)) =
      some (SelectOutcome.pending ⟨none, some 3, none, none, false⟩, none) := by
  refine ⟨rfl, ?_, rfl, ?_⟩
  · exact (c1_select_sync_race (3 : Nat)
      (CancelSpec.mk (some 7) true)).1 7 rfl
  · exact (c1_select_sync_race (3 : Nat)
      (CancelSpec.mk (none : Option Nat) true)).2 rfl

end XxPulse
